import Mathlib

/-!
Shallow embedding of `storagelayer/s3.py` (class `S3Archive`), a content-addressed
storage layer over an S3 bucket.  The S3 bucket is modelled as an association list
from object keys to byte contents, together with a store-call counter (the
"store-call counter in a test double" of the design's testable properties).
Files are identified with their byte contents (`Bytes`).  The thread-local
download cache (`self.local`) is modelled as a `LocalState`: a flag recording
whether the `tempfile.mkdtemp` root has been created, and a list of per-hash
subdirectories with the files they hold.
-/

/-- Error kinds surfaced by the storage layer (design's error-handling section). -/
inductive StorageError
  | invalidHash
  | objectNotFound
  deriving DecidableEq, Repr

/-- Outcomes of `os.makedirs` on the per-hash cache directory.  The outcome is
injected as a parameter of `load_file` because it depends on the real
filesystem; the source wraps the call in a bare `try`/`except: pass`. -/
inductive OSError
  | fileExists
  | permissionDenied
  deriving DecidableEq, Repr

/-- File contents: a sequence of bytes. -/
abbrev Bytes := List Nat

/-- Path separator used by `os.path.join`. -/
def sep : Char := '/'

/-- Hex digit test (lowercase), used to recognise well-formed content hashes. -/
def isHexChar (c : Char) : Bool :=
  c.isDigit || ('a' ≤ c && c ≤ 'f')

/-- Modelled from the spec: a well-formed ContentHash is a non-empty hex digest;
a malformed or empty hash is invalid. -/
def isValidHash (h : String) : Bool :=
  !(h.data.isEmpty) && h.data.all isHexChar

/-- Hex digit character for a value below 16. -/
def hexChar (n : Nat) : Char :=
  if n < 10 then Char.ofNat (48 + n) else Char.ofNat (87 + n)

/-- Fixed-width big-endian hex rendering of a natural number. -/
def hexDigits (n : Nat) : Nat → List Char
  | 0 => []
  | k + 1 => hexDigits (n / 16) k ++ [hexChar (n % 16)]

/-- Modelled from the spec: the ContentHasher collaborator
`storagelayer.util.checksum` is not part of the source tree.  The design
describes it as a pure, deterministic, collision-resistant digest of the file
bytes rendered as a fixed-format hex string; we model it as a deterministic
16-hex-digit fingerprint of the byte list. -/
def checksum (data : Bytes) : String :=
  String.mk (hexDigits (data.foldl (fun a b => (a * 257 + b + 1) % (2 ^ 64)) 0) 16)

/-- Storage-key prefix derived from a content hash: two two-character
directories followed by the full hash (`ab/cd/abcdef...`). -/
def keyPre (content_hash : String) : String :=
  String.mk (content_hash.data.take 2 ++
    sep :: ((content_hash.data.drop 2).take 2 ++ sep :: content_hash.data))

/-- Modelled from the spec: the KeyLayout method
`storagelayer.archive.Archive._get_prefix` is not part of the source tree.  The
design requires a pure derivation of a storage prefix from the hash alone
(short prefix directories plus the hash) that fails with `InvalidHash` when
given a malformed or empty hash. -/
def _get_prefix (content_hash : String) : Except StorageError String :=
  if isValidHash content_hash then .ok (keyPre content_hash)
  else .error .invalidHash

/-- Model of `client.list_objects(MaxKeys=1, Bucket=..., Prefix=pre)` followed
by taking the key of the first listed object: the first stored object whose key
starts with `pre`, if any. -/
def list_objects_top (objects : List (String × Bytes)) (pre : String) : Option String :=
  (objects.find? (fun kv => pre.data.isPrefixOf kv.1.data)).map (fun kv => kv.1)

/-- Contents stored under an exact key, if any. -/
def lookup_object (objects : List (String × Bytes)) (key : String) : Option Bytes :=
  (objects.find? (fun kv => kv.1 == key)).map (fun kv => kv.2)

/-- `S3Archive._locate_key`: `None` hash yields no key; otherwise derive the
prefix (the spec-modelled KeyLayout, whose failure propagates) and probe the
bucket with a `MaxKeys=1` listing. -/
def _locate_key (objects : List (String × Bytes)) (content_hash : Option String) :
    Except StorageError (Option String) :=
  match content_hash with
  | none => .ok none
  | some ch =>
    match _get_prefix ch with
    | .error e => .error e
    | .ok pre => .ok (list_objects_top objects pre)

/-- State of the S3 bucket: stored objects, an upload (store-call) counter, and
the bucket name. -/
structure S3State where
  objects : List (String × Bytes)
  uploads : Nat
  bucket : String
  deriving DecidableEq, Repr

/-- Model of `client.upload_file(file_path, bucket, key)`: store the bytes under
the key (overwriting any previous object at that exact key) and count the call. -/
def upload_file (st : S3State) (data : Bytes) (key : String) : S3State :=
  { st with
    objects := (key, data) :: st.objects.filter (fun kv => !(kv.1 == key))
    uploads := st.uploads + 1 }

/-- Model of `os.path.join` for one extra component. -/
def pathJoin (a b : String) : String :=
  String.mk (a.data ++ sep :: b.data)

/-- `S3Archive.archive_file`: compute the checksum when no hash is supplied,
upload only when `_locate_key` finds no existing object, return the hash. -/
def archive_file (st : S3State) (data : Bytes) (content_hash : Option String) :
    Except StorageError (S3State × String) :=
  let ch := match content_hash with
    | none => checksum data
    | some h => h
  match _locate_key st.objects (some ch) with
  | .error e => .error e
  | .ok (some _) => .ok (st, ch)
  | .ok none =>
    match _get_prefix ch with
    | .error e => .error e
    | .ok pre => .ok (upload_file st data (pathJoin pre "data"), ch)

/-- Modelled from the spec: `client.download_file` (the Backend fetch
collaborator) downloads the object at the key, failing with `ObjectNotFound`
when the key vanished between locate and fetch. -/
def download_file (objects : List (String × Bytes)) (key : String) :
    Except StorageError Bytes :=
  match lookup_object objects key with
  | some b => .ok b
  | none => .error .objectNotFound

/-- Thread-local cache state: whether the `tempfile.mkdtemp` root exists, and
the per-hash subdirectories with their files. -/
structure LocalState where
  hasRoot : Bool
  cache : List (String × List (String × Bytes))
  deriving DecidableEq, Repr

/-- Combined state of the archive: the shared bucket plus the caller's local
cache. -/
structure ArchState where
  s3 : S3State
  loc : LocalState
  deriving DecidableEq, Repr

/-- `S3Archive._get_local_prefix`: lazily create the thread-local temp root on
first use, then return the per-hash subdirectory path (identified here by the
hash itself, the root being abstracted away). -/
def _get_local_prefix (l : LocalState) (content_hash : String) : LocalState × String :=
  ({ l with hasRoot := true }, content_hash)

/-- Create the cache subdirectory if it is absent. -/
def cacheEnsureDir (c : List (String × List (String × Bytes))) (d : String) :
    List (String × List (String × Bytes)) :=
  if (c.find? (fun e => e.1 == d)).isSome then c else (d, []) :: c

/-- Write a file into a cache subdirectory (no effect when the directory is
absent). -/
def cacheAddFile (c : List (String × List (String × Bytes))) (d fname : String)
    (bytes : Bytes) : List (String × List (String × Bytes)) :=
  c.map (fun e =>
    if e.1 == d then (e.1, (fname, bytes) :: e.2.filter (fun f => !(f.1 == fname)))
    else e)

/-- Effect of `try: os.makedirs(path) except: pass` on the cache: on success or
on an already-exists failure the directory exists afterwards; on any other
failure it does not — and in every case execution continues. -/
def cacheAfterMkdir (c : List (String × List (String × Bytes))) (d : String)
    (out : Except OSError Unit) : List (String × List (String × Bytes)) :=
  match out with
  | .ok _ => cacheEnsureDir c d
  | .error .fileExists => cacheEnsureDir c d
  | .error _ => c

/-- Modelled from the spec: the filename-sanitizer collaborator
`normality.safe_filename` is not part of the source tree.  The design describes
it as stripping path separators and unsafe characters and returning the default
when the name is empty or absent. -/
def isSafeChar (c : Char) : Bool :=
  c.isAlphanum || c == '.' || c == '-' || c == '_'

/-- Modelled from the spec: `safe_filename(name, default)` keeps only safe
characters and falls back to the default for an absent or emptied name. -/
def safe_filename (name : Option String) (dflt : String) : String :=
  match name with
  | none => dflt
  | some s =>
    let cleaned := String.mk (s.data.filter isSafeChar)
    if cleaned.data.isEmpty then dflt else cleaned

/-- `S3Archive.load_file`, with the bucket contents possibly re-read at fetch
time: `fetchObjs` is the object list seen by `download_file`, which may differ
from the one seen by `_locate_key` when the bucket is concurrently modified.
Returns the new state and, when an object exists, the local path (cache
subdirectory and final file name) together with the downloaded bytes. -/
def load_file_at (st : ArchState) (fetchObjs : List (String × Bytes))
    (mkdirOutcome : Except OSError Unit) (content_hash file_name : Option String) :
    Except StorageError (ArchState × Option (String × String × Bytes)) :=
  match content_hash with
  | none => .ok (st, none)
  | some ch =>
    match _locate_key st.s3.objects (some ch) with
    | .error e => .error e
    | .ok none => .ok (st, none)
    | .ok (some key) =>
      let lp := _get_local_prefix st.loc ch
      let cache₁ := cacheAfterMkdir lp.1.cache lp.2 mkdirOutcome
      let fname := safe_filename file_name "data"
      match download_file fetchObjs key with
      | .error e => .error e
      | .ok bytes =>
        .ok ({ st with loc := { lp.1 with cache := cacheAddFile cache₁ lp.2 fname bytes } },
             some (lp.2, fname, bytes))

/-- `S3Archive.load_file`: the bucket is read consistently at locate and fetch
time. -/
def load_file (st : ArchState) (mkdirOutcome : Except OSError Unit)
    (content_hash file_name : Option String) :
    Except StorageError (ArchState × Option (String × String × Bytes)) :=
  load_file_at st st.s3.objects mkdirOutcome content_hash file_name

/-- `S3Archive.cleanup_file`: delete the local cached version of the file.
`None` is a no-op; otherwise resolve the local path (which lazily creates the
temp root) and remove the subdirectory when it is present. -/
def cleanup_file (st : ArchState) (content_hash : Option String) : ArchState :=
  match content_hash with
  | none => st
  | some ch =>
    let lp := _get_local_prefix st.loc ch
    if (lp.1.cache.find? (fun e => e.1 == lp.2)).isSome then
      { st with loc := { lp.1 with cache := lp.1.cache.filter (fun e => !(e.1 == lp.2)) } }
    else
      { st with loc := lp.1 }

/-- URL expiry constant `S3Archive.TIMEOUT`. -/
def S3Archive.TIMEOUT : Nat := 84600

/-- A presigned URL: the bucket, the signed key, the absolute expiry time and
the response-header overrides encoded in it. -/
structure PresignedURL where
  bucket : String
  key : String
  expiresAt : Nat
  responseContentType : Option String
  responseContentDisposition : Option String
  deriving DecidableEq, Repr

/-- Python truthiness for an optional string: an empty string counts as absent. -/
def optNonEmpty (o : Option String) : Option String :=
  match o with
  | none => none
  | some s => if s.data.isEmpty then none else some s

/-- Modelled from the spec: `client.generate_presigned_url` (the Backend
issueURL collaborator) returns a URL valid for `expiresIn` seconds from `now`,
failing with `ObjectNotFound` when the key does not exist. -/
def generate_presigned_url (objects : List (String × Bytes)) (now : Nat)
    (bucket key : String) (ct cd : Option String) (expiresIn : Nat) :
    Except StorageError PresignedURL :=
  match lookup_object objects key with
  | none => .error .objectNotFound
  | some _ => .ok ⟨bucket, key, now + expiresIn, ct, cd⟩

/-- `S3Archive.generate_url`, with the bucket contents possibly re-read at URL
issuance time (`issObjs`).  Returns `none` when no object exists for the hash;
otherwise issues a URL carrying the optional content type and an
`inline; filename=...` disposition built verbatim from the file name. -/
def generate_url_at (st : ArchState) (issObjs : List (String × Bytes)) (now : Nat)
    (content_hash file_name mime_type : Option String) :
    Except StorageError (Option PresignedURL) :=
  match _locate_key st.s3.objects content_hash with
  | .error e => .error e
  | .ok none => .ok none
  | .ok (some key) =>
    let ct := optNonEmpty mime_type
    let cd := (optNonEmpty file_name).map (fun s => "inline; filename=" ++ s)
    match generate_presigned_url issObjs now st.s3.bucket key ct cd S3Archive.TIMEOUT with
    | .error e => .error e
    | .ok url => .ok (some url)

/-- `S3Archive.generate_url`: the bucket is read consistently at locate and
issuance time. -/
def generate_url (st : ArchState) (now : Nat)
    (content_hash file_name mime_type : Option String) :
    Except StorageError (Option PresignedURL) :=
  generate_url_at st st.s3.objects now content_hash file_name mime_type

/-! ## Helper lemmas -/

theorem isPrefixOf_append_self (l r : List Char) : l.isPrefixOf (l ++ r) = true := by
  induction l with
  | nil => simp
  | cons a t ih => simp [List.isPrefixOf_cons₂, ih]

theorem isHexChar_hexChar (m : Nat) (hm : m < 16) : isHexChar (hexChar m) = true := by
  have h := (by decide : ∀ i : Fin 16, isHexChar (hexChar i.val) = true)
  exact h ⟨m, hm⟩

theorem hexDigits_length (k : Nat) : ∀ n, (hexDigits n k).length = k := by
  induction k with
  | zero => intro n; rfl
  | succ k ih => intro n; simp [hexDigits, ih]

theorem hexDigits_all (k : Nat) : ∀ n, (hexDigits n k).all isHexChar = true := by
  induction k with
  | zero => intro n; rfl
  | succ k ih =>
    intro n
    simp [hexDigits, List.all_append, ih,
      isHexChar_hexChar (n % 16) (Nat.mod_lt n (by decide))]

theorem checksum_isValidHash (data : Bytes) : isValidHash (checksum data) = true := by
  have hall := hexDigits_all 16 (data.foldl (fun a b => (a * 257 + b + 1) % (2 ^ 64)) 0)
  have hlen := hexDigits_length 16 (data.foldl (fun a b => (a * 257 + b + 1) % (2 ^ 64)) 0)
  unfold checksum isValidHash
  cases hl : hexDigits (data.foldl (fun a b => (a * 257 + b + 1) % (2 ^ 64)) 0) 16 with
  | nil => rw [hl] at hlen; simp at hlen
  | cons c t =>
    rw [hl] at hall
    simp [hall]

theorem lookup_object_of_mem {objs : List (String × Bytes)} {kv : String × Bytes}
    (h : kv ∈ objs) : ∃ b, lookup_object objs kv.1 = some b := by
  induction objs with
  | nil => cases h
  | cons a t ih =>
    rcases List.mem_cons.mp h with rfl | ht
    · exact ⟨kv.2, by simp [lookup_object, List.find?]⟩
    · cases ha : a.1 == kv.1 with
      | true => exact ⟨a.2, by simp [lookup_object, List.find?, ha]⟩
      | false =>
        obtain ⟨b, hb⟩ := ih ht
        refine ⟨b, ?_⟩
        simpa [lookup_object, List.find?, ha] using hb

theorem lookup_object_mem {objs : List (String × Bytes)} {k : String} {b : Bytes}
    (h : lookup_object objs k = some b) : (k, b) ∈ objs := by
  unfold lookup_object at h
  obtain ⟨kv, hfind, hk⟩ := Option.map_eq_some'.mp h
  have hmem := List.mem_of_find?_eq_some hfind
  have hp := List.find?_some hfind
  have : kv.1 = k := by simpa using hp
  obtain ⟨k1, b1⟩ := kv
  simp_all

theorem list_objects_top_some {objs : List (String × Bytes)} {pre k : String}
    (h : list_objects_top objs pre = some k) :
    ∃ b, lookup_object objs k = some b ∧ (k, b) ∈ objs ∧
      pre.data.isPrefixOf k.data = true := by
  unfold list_objects_top at h
  obtain ⟨kv, hfind, hk⟩ := Option.map_eq_some'.mp h
  have hmem := List.mem_of_find?_eq_some hfind
  have hp : pre.data.isPrefixOf kv.1.data = true := by
    simpa using List.find?_some hfind
  subst hk
  obtain ⟨b, hb⟩ := lookup_object_of_mem hmem
  exact ⟨b, hb, lookup_object_mem hb, hp⟩

theorem locate_key_some_elim {objs : List (String × Bytes)} {ch key : String}
    (h : _locate_key objs (some ch) = .ok (some key)) :
    isValidHash ch = true ∧ list_objects_top objs (keyPre ch) = some key := by
  cases hv : isValidHash ch with
  | false => simp [ _locate_key, _get_prefix, hv] at h
  | true =>
    simp [ _locate_key, _get_prefix, hv] at h
    exact ⟨rfl, h⟩

theorem locate_key_some_lookup {objs : List (String × Bytes)} {ch key : String}
    (h : _locate_key objs (some ch) = .ok (some key)) :
    ∃ b, lookup_object objs key = some b := by
  obtain ⟨-, hfind⟩ := locate_key_some_elim h
  obtain ⟨b, hb, -, -⟩ := list_objects_top_some hfind
  exact ⟨b, hb⟩

theorem locate_after_upload (st : S3State) (data : Bytes) (ch : String)
    (hv : isValidHash ch = true) :
    _locate_key (upload_file st data (pathJoin (keyPre ch) "data")).objects (some ch) =
      .ok (some (pathJoin (keyPre ch) "data")) := by
  have hp : ((keyPre ch).data.isPrefixOf (pathJoin (keyPre ch) "data").data) = true :=
    isPrefixOf_append_self (keyPre ch).data (sep :: "data".data)
  simp [ _locate_key, _get_prefix, hv, upload_file, list_objects_top, List.find?, hp]

/-! ## Claims -/

/-- Claim C1: archiving is idempotent and deduplicating — for every bucket
state and file, `archive_file` called twice returns the same content hash both
times, the second call leaves the state unchanged (no upload), and the whole
pair of calls performs at most one upload. -/
theorem archive_file_idempotent (st : S3State) (data : Bytes) :
    ∃ st₁ h,
      archive_file st data none = .ok (st₁, h) ∧
      archive_file st₁ data none = .ok (st₁, h) ∧
      st₁.uploads ≤ st.uploads + 1 := by
  have hv := checksum_isValidHash data
  generalize hgen : checksum data = ch at hv
  cases hfind : list_objects_top st.objects (keyPre ch) with
  | some k =>
    refine ⟨st, ch, ?_, ?_, Nat.le_succ _⟩ <;>
      (unfold archive_file; simp only [hgen, _locate_key, _get_prefix, hv, if_true, hfind])
  | none =>
    refine ⟨upload_file st data (pathJoin (keyPre ch) "data"), ch, ?_, ?_, ?_⟩
    · unfold archive_file
      simp only [hgen, _locate_key, _get_prefix, hv, if_true, hfind]
    · unfold archive_file
      simp only [hgen, locate_after_upload st data ch hv]
    · simp [upload_file]

/-- Claim C2: round trip — archiving a file and then loading its hash returns a
local path whose bytes equal the original bytes, provided every object already
stored under the hash's key prefix holds those same bytes (the content-
addressing invariant; any fresh state satisfies it vacuously). -/
theorem archive_load_round_trip (st : ArchState) (data : Bytes)
    (mk : Except OSError Unit) (name : Option String)
    (hca : ∀ kv ∈ st.s3.objects,
      (keyPre (checksum data)).data.isPrefixOf kv.1.data = true → kv.2 = data) :
    ∃ st₁,
      archive_file st.s3 data none = .ok (st₁, checksum data) ∧
      (load_file ⟨st₁, st.loc⟩ mk (some (checksum data)) name).map
          (fun r => r.2.map (fun p => (p.1, p.2.2))) =
        .ok (some (checksum data, data)) := by
  have hv := checksum_isValidHash data
  generalize hgen : checksum data = ch at hv hca ⊢
  cases hfind : list_objects_top st.s3.objects (keyPre ch) with
  | some k =>
    refine ⟨st.s3, ?_, ?_⟩
    · unfold archive_file
      simp only [hgen, _locate_key, _get_prefix, hv, if_true, hfind]
    · obtain ⟨b, hb, hmem, hpref⟩ := list_objects_top_some hfind
      have hbd : b = data := hca (k, b) hmem hpref
      subst hbd
      unfold load_file load_file_at
      simp only [ _locate_key, _get_prefix, hv, if_true, hfind, download_file, hb,
        _get_local_prefix, Except.map, Option.map]
  | none =>
    refine ⟨upload_file st.s3 data (pathJoin (keyPre ch) "data"), ?_, ?_⟩
    · unfold archive_file
      simp only [hgen, _locate_key, _get_prefix, hv, if_true, hfind]
    · have hloc := locate_after_upload st.s3 data ch hv
      have hup : lookup_object
          (upload_file st.s3 data (pathJoin (keyPre ch) "data")).objects
          (pathJoin (keyPre ch) "data") = some data := by
        simp [upload_file, lookup_object, List.find?]
      unfold load_file load_file_at
      simp only [hloc, download_file, hup, _get_local_prefix, Except.map, Option.map]

/-- Witness for C2 at a concrete ten-byte file and an empty bucket. -/
theorem archive_load_round_trip_witness :
    ∃ st₁,
      archive_file ⟨[], 0, "bucket"⟩ [1, 2, 3, 4, 5, 6, 7, 8, 9, 10] none =
        .ok (st₁, checksum [1, 2, 3, 4, 5, 6, 7, 8, 9, 10]) ∧
      (load_file ⟨st₁, ⟨false, []⟩⟩ (.ok ())
          (some (checksum [1, 2, 3, 4, 5, 6, 7, 8, 9, 10])) (some "report.pdf")).map
          (fun r => r.2.map (fun p => (p.1, p.2.2))) =
        .ok (some (checksum [1, 2, 3, 4, 5, 6, 7, 8, 9, 10],
          [1, 2, 3, 4, 5, 6, 7, 8, 9, 10])) :=
  archive_load_round_trip ⟨⟨[], 0, "bucket"⟩, ⟨false, []⟩⟩
    [1, 2, 3, 4, 5, 6, 7, 8, 9, 10] (.ok ()) (some "report.pdf")
    (by intro kv hkv; cases hkv)

/-- Claim C3: absence is a value on the read path — when `_locate_key` finds no
object for a hash, `load_file` returns `none` (and leaves the state unchanged)
and `generate_url` returns `none`; neither raises. -/
theorem read_path_absence_is_none (st : ArchState) (ch : String)
    (mk : Except OSError Unit) (name mime : Option String) (now : Nat)
    (hnone : _locate_key st.s3.objects (some ch) = .ok none) :
    load_file st mk (some ch) name = .ok (st, none) ∧
    generate_url st now (some ch) name mime = .ok none := by
  constructor
  · unfold load_file load_file_at
    simp only [hnone]
  · unfold generate_url generate_url_at
    simp only [hnone]

/-- Witness for C3 at an empty bucket and the hash "ab". -/
theorem read_path_absence_is_none_witness :
    load_file ⟨⟨[], 0, "bucket"⟩, ⟨false, []⟩⟩ (.ok ()) (some "ab") none =
      .ok (⟨⟨[], 0, "bucket"⟩, ⟨false, []⟩⟩, none) ∧
    generate_url ⟨⟨[], 0, "bucket"⟩, ⟨false, []⟩⟩ 0 (some "ab") none none = .ok none :=
  read_path_absence_is_none ⟨⟨[], 0, "bucket"⟩, ⟨false, []⟩⟩ "ab" (.ok ()) none none 0
    (by rfl)

/-- Claim C4: URL expiry — whenever an object exists for the hash, the issued
URL's expiry equals the construction time plus `S3Archive.TIMEOUT`, and that
configured TTL is exactly 84600 seconds. -/
theorem generate_url_expiry (st : ArchState) (now : Nat) (ch key : String)
    (name mime : Option String)
    (hk : _locate_key st.s3.objects (some ch) = .ok (some key)) :
    (generate_url st now (some ch) name mime).map
        (fun o => o.map (fun u => u.expiresAt)) =
      .ok (some (now + S3Archive.TIMEOUT)) ∧
    S3Archive.TIMEOUT = 84600 := by
  obtain ⟨b, hb⟩ := locate_key_some_lookup hk
  refine ⟨?_, rfl⟩
  unfold generate_url generate_url_at generate_presigned_url
  simp only [hk, hb, Except.map, Option.map]

/-- Witness for C4 at a bucket holding one object for the hash "abcd". -/
theorem generate_url_expiry_witness :
    (generate_url ⟨⟨[("ab/cd/abcd/data", [7])], 0, "bucket"⟩, ⟨false, []⟩⟩ 5
        (some "abcd") none none).map (fun o => o.map (fun u => u.expiresAt)) =
      .ok (some (5 + S3Archive.TIMEOUT)) ∧
    S3Archive.TIMEOUT = 84600 :=
  generate_url_expiry ⟨⟨[("ab/cd/abcd/data", [7])], 0, "bucket"⟩, ⟨false, []⟩⟩ 5
    "abcd" "ab/cd/abcd/data" none none (by rfl)

theorem filter_not_of_find?_none {α : Type} (p : α → Bool) :
    ∀ l : List α, l.find? p = none → l.filter (fun x => !(p x)) = l := by
  intro l
  induction l with
  | nil => intro _; rfl
  | cons a t ih =>
    intro h
    cases hpa : p a with
    | true => simp [List.find?, hpa] at h
    | false =>
      simp only [List.find?, hpa] at h
      simp [List.filter, hpa, ih h]

theorem find?_filter_not {α : Type} (p : α → Bool) :
    ∀ l : List α, (l.filter (fun x => !(p x))).find? p = none := by
  intro l
  induction l with
  | nil => rfl
  | cons a t ih =>
    cases hpa : p a with
    | true => simp [List.filter, hpa, ih]
    | false => simp [List.filter, List.find?, hpa, ih]

/-- Claim C5: `cleanup_file` is local-only, tolerant and idempotent — a `None`
hash is a no-op, the remote bucket state is never changed, the local effect is
exactly the removal of the cache subdirectory for the hash (and nothing else),
and a second call with the same hash changes nothing. -/
theorem cleanup_file_local_idempotent (st : ArchState) (ch : String) :
    cleanup_file st none = st ∧
    (cleanup_file st (some ch)).s3 = st.s3 ∧
    (cleanup_file st (some ch)).loc.cache =
      st.loc.cache.filter (fun e => !(e.1 == ch)) ∧
    cleanup_file (cleanup_file st (some ch)) (some ch) = cleanup_file st (some ch) := by
  refine ⟨rfl, ?_, ?_, ?_⟩ <;>
    cases hfind : st.loc.cache.find? (fun e => e.1 == ch) with
  | some e =>
    unfold cleanup_file
    simp [ _get_local_prefix, hfind]
  | none =>
    unfold cleanup_file
    simp [ _get_local_prefix, hfind, filter_not_of_find?_none _ _ hfind, find?_filter_not]

/-- Claim C6: key derivation fails with `InvalidHash` on bad input — for every
malformed or empty content hash, the `_get_prefix` / `_locate_key` path fails
with the `invalidHash` error instead of returning a key or a silent `none`. -/
theorem locate_key_invalid_hash_error (objs : List (String × Bytes)) (ch : String)
    (hbad : isValidHash ch = false) :
    _get_prefix ch = .error .invalidHash ∧
    _locate_key objs (some ch) = .error .invalidHash := by
  constructor <;> simp [ _locate_key, _get_prefix, hbad]

/-- Witness for C6 at the empty hash and a malformed hash. -/
theorem locate_key_invalid_hash_error_witness :
    ( _get_prefix "" = .error .invalidHash ∧
      _locate_key [] (some "") = .error .invalidHash) ∧
    ( _get_prefix "ZZ!" = .error .invalidHash ∧
      _locate_key [] (some "ZZ!") = .error .invalidHash) :=
  ⟨locate_key_invalid_hash_error [] "" (by rfl),
   locate_key_invalid_hash_error [] "ZZ!" (by rfl)⟩

/-- Claim C7: vanished-key races are hard failures — when `_locate_key` finds a
key but the object is gone from the bucket at fetch or URL-issuance time, both
`load_file` and `generate_url` fail with `objectNotFound` instead of returning
the "no object" `none` result. -/
theorem vanished_key_object_not_found (st : ArchState) (objs2 : List (String × Bytes))
    (ch key : String) (mk : Except OSError Unit) (name mime : Option String) (now : Nat)
    (hk : _locate_key st.s3.objects (some ch) = .ok (some key))
    (hgone : lookup_object objs2 key = none) :
    load_file_at st objs2 mk (some ch) name = .error .objectNotFound ∧
    generate_url_at st objs2 now (some ch) name mime = .error .objectNotFound := by
  constructor
  · unfold load_file_at download_file
    simp only [hk, hgone]
  · unfold generate_url_at generate_presigned_url
    simp only [hk, hgone]

/-- Witness for C7: the object for hash "abcd" is located, then the bucket is
read again empty at fetch and issuance time. -/
theorem vanished_key_object_not_found_witness :
    load_file_at ⟨⟨[("ab/cd/abcd/data", [7])], 0, "bucket"⟩, ⟨false, []⟩⟩ [] (.ok ())
      (some "abcd") none = .error .objectNotFound ∧
    generate_url_at ⟨⟨[("ab/cd/abcd/data", [7])], 0, "bucket"⟩, ⟨false, []⟩⟩ [] 9
      (some "abcd") none none = .error .objectNotFound :=
  vanished_key_object_not_found ⟨⟨[("ab/cd/abcd/data", [7])], 0, "bucket"⟩, ⟨false, []⟩⟩
    [] "abcd" "ab/cd/abcd/data" (.ok ()) none none 9 (by rfl) (by rfl)

/-- Claim C8: filename handling in `load_file` — whenever the object exists,
the final component of the returned local path is `safe_filename` applied to
the preferred name, and an absent name falls back to the fixed default "data". -/
theorem load_file_sanitized_filename (st : ArchState) (ch key : String)
    (mk : Except OSError Unit) (name : Option String)
    (hk : _locate_key st.s3.objects (some ch) = .ok (some key)) :
    (load_file st mk (some ch) name).map (fun r => r.2.map (fun p => p.2.1)) =
      .ok (some (safe_filename name "data")) ∧
    safe_filename none "data" = "data" := by
  obtain ⟨b, hb⟩ := locate_key_some_lookup hk
  refine ⟨?_, rfl⟩
  unfold load_file load_file_at download_file
  simp only [hk, hb, Except.map, Option.map]

/-- Witness for C8: loading hash "abcd" with preferred name "report.pdf". -/
theorem load_file_sanitized_filename_witness :
    (load_file ⟨⟨[("ab/cd/abcd/data", [7])], 0, "bucket"⟩, ⟨false, []⟩⟩ (.ok ())
        (some "abcd") (some "report.pdf")).map (fun r => r.2.map (fun p => p.2.1)) =
      .ok (some (safe_filename (some "report.pdf") "data")) ∧
    safe_filename none "data" = "data" :=
  load_file_sanitized_filename ⟨⟨[("ab/cd/abcd/data", [7])], 0, "bucket"⟩, ⟨false, []⟩⟩
    "abcd" "ab/cd/abcd/data" (.ok ()) (some "report.pdf") (by rfl)

/-- Claim C9 (code bug in the source): `load_file` wraps the cache-directory
creation in a bare try/except-pass, so a failure other than already-exists
(here an injected permission error) never reaches the caller: the call still
returns the downloaded file as if nothing went wrong. -/
theorem load_file_swallows_mkdir_error :
    (load_file ⟨⟨[("ab/cd/abcd/data", [7])], 0, "bucket"⟩, ⟨false, []⟩⟩
        (.error .permissionDenied) (some "abcd") none).map
      (fun r => r.2.map (fun p => p.2.2)) = .ok (some [7]) := by rfl

theorem data_isEmpty_false_of_ne {s : String} (hs : s ≠ "") : s.data.isEmpty = false := by
  cases hd : s.data.isEmpty with
  | false => rfl
  | true =>
    obtain ⟨l⟩ := s
    simp only [List.isEmpty_iff] at hd
    subst hd
    exact absurd rfl hs

/-- Claim C10 (implicit in the source): `generate_url` builds the
Content-Disposition header as `inline; filename=` followed by the
caller-supplied name verbatim, with no sanitization — for every non-empty
file name and existing object the issued URL carries the raw name. -/
theorem generate_url_unsanitized_disposition (st : ArchState) (now : Nat)
    (ch key s : String) (mime : Option String)
    (hk : _locate_key st.s3.objects (some ch) = .ok (some key)) (hs : s ≠ "") :
    (generate_url st now (some ch) (some s) mime).map
        (fun o => o.map (fun u => u.responseContentDisposition)) =
      .ok (some (some ("inline; filename=" ++ s))) := by
  obtain ⟨b, hb⟩ := locate_key_some_lookup hk
  have hne := data_isEmpty_false_of_ne hs
  unfold generate_url generate_url_at generate_presigned_url optNonEmpty
  simp only [hk, hb, hne, Except.map, Option.map, Bool.false_eq_true, if_false]

/-- Witness for C10: a name containing a path separator and a space is embedded
verbatim in the disposition header (where `safe_filename` would have stripped
those characters). -/
theorem generate_url_unsanitized_disposition_witness :
    (generate_url ⟨⟨[("ab/cd/abcd/data", [7])], 0, "bucket"⟩, ⟨false, []⟩⟩ 0
        (some "abcd") (some "../esc ape.pdf") none).map
        (fun o => o.map (fun u => u.responseContentDisposition)) =
      .ok (some (some ("inline; filename=" ++ "../esc ape.pdf"))) :=
  generate_url_unsanitized_disposition
    ⟨⟨[("ab/cd/abcd/data", [7])], 0, "bucket"⟩, ⟨false, []⟩⟩ 0
    "abcd" "ab/cd/abcd/data" "../esc ape.pdf" none (by rfl) (by decide)
